import Mathlib

/-!
Verification of `jpegenc/models/processing.py` (ProcessingSubblock).

The Python source is a MyHDL model: a `ProcessingSubblock` class whose
constructor validates its configuration, and whose `process` method wires an
input `DataStream` to an output `DataStream` through a latency state machine
(`processing_model`), a combinational readiness function (`beh_ready`) and,
when buffering is requested, two `FIFOReadyValid` instances.

Embedding conventions:
* A MyHDL signal assignment `sig.next = v` inside one resumption of the
  generator reads only previously-committed values and commits together with
  the other assignments of that resumption; one resumption of
  `processing_model` per clock edge is therefore one application of a pure
  step function on a state record.
* `states ... t` is the committed state just after clock edge `t`; `t = 0`
  stands for the initial run of the generator at simulation start (MyHDL runs
  the generator body up to its first `yield` before the first edge).
* The value the upstream producer drives onto `datain` and that the generator
  reads when it resumes at edge `t` is `din t`; the readiness the producer saw
  when choosing `din t` is the state committed after edge `t - 1`.
* The `phase` field encodes the resumption point of the generator inside its
  `while True:` loop for the non-pipelined branch (`phase = 0`: about to
  execute the `dataout`/`dataproc` assignments; `phase = j ≥ 1`: suspended at
  the `yield` of iteration `j` of the `for nn in range(self.ctp-1)` stall
  loop, re-asserting readiness when `phase = ctp - 1`).  In the pipelined
  branch the generator has a single suspension point, so `phase` stays `0`.
* The `DataStream` class itself is not under `src/`.  Modelled from the spec:
  a stream carries a fixed-width `data` value, a `valid` flag and a `ready`
  flag; `copy()` yields an independent stream of the same width with initial
  contents (`data = 0`, `valid = False`); assigning one stream to another
  transfers the sample payload (`data`, `valid`).
-/

/-- A sample travelling on a stream: the `data`/`valid` payload of a
`DataStream` (modelled from the spec, the class itself is outside `src/`). -/
structure Sample where
  data : Nat
  valid : Bool
deriving DecidableEq, Repr

/-- Initial contents of a freshly created stream / stream copy:
`Signal(bool(0))` style defaults. -/
def sInit : Sample := ⟨0, false⟩

/-- Committed state of the `processing_model` generator together with the
registers it drives, just after one clock edge. -/
structure CoreState where
  ready : Bool
  dataproc : Sample
  pipeline : List Sample
  dataout : Sample
  phase : Nat
deriving DecidableEq, Repr

/-- The pipeline shift of the `piped` branch of `processing_model`:
`pipeline[0].next = datain`; `pipeline[ii].next = pipeline[ii-1]`;
`dataproc.next = pipeline[-1]`.  When `cycles_to_process = 1` the register
file `pipeline` is the empty list and `pipeline[0]` raises `IndexError`,
modelled as `none`. -/
def pipeShift (pipeline : List Sample) (din : Sample) :
    Option (List Sample × Sample) :=
  match pipeline with
  | [] => none
  | p :: ps => some (din :: (p :: ps).dropLast, (p :: ps).getLastD sInit)

/-- The run of `processing_model` at simulation start, up to its first
`yield clock.posedge`: `ready.next = True`, then the first iteration of the
loop body (pipelined: one shift; non-pipelined: `dataproc.next = datain` and,
when `ctp ≥ 2`, the first stall iteration `ready.next = False`). -/
def initCore (ctp : Nat) (piped : Bool) (din0 : Sample) : Option CoreState :=
  let pl : List Sample := List.replicate (ctp - 1) sInit
  if piped then
    match pipeShift pl din0 with
    | none => none
    | some (pl', dp') =>
      some { ready := true, dataproc := dp', pipeline := pl',
             dataout := sInit, phase := 0 }
  else
    if ctp = 1 then
      some { ready := true, dataproc := din0, pipeline := pl,
             dataout := sInit, phase := 0 }
    else
      some { ready := false, dataproc := din0, pipeline := pl,
             dataout := sInit, phase := 1 }

/-- One resumption of `processing_model` at a clock edge: the code between two
`yield clock.posedge` suspensions, all `.next` assignments reading the
previously committed state `s` and the current input sample `din`. -/
def stepCore (ctp : Nat) (piped : Bool) (s : CoreState) (din : Sample) :
    Option CoreState :=
  if piped then
    match pipeShift s.pipeline din with
    | none => none
    | some (pl', dp') =>
      some { ready := s.ready, dataproc := dp', pipeline := pl',
             dataout := s.dataproc, phase := 0 }
  else
    if s.phase = 0 then
      -- `dataout.next = dataproc`, loop to top, `dataproc.next = datain`,
      -- then either the first stall iteration (`ctp ≥ 2`) or directly
      -- `ready.next = True` (`ctp = 1`)
      if ctp = 1 then
        some { ready := true, dataproc := din, pipeline := s.pipeline,
               dataout := s.dataproc, phase := 0 }
      else
        some { ready := false, dataproc := din, pipeline := s.pipeline,
               dataout := s.dataproc, phase := 1 }
    else if s.phase = ctp - 1 then
      -- last stall iteration is over: `ready.next = True`, `yield`
      some { ready := true, dataproc := s.dataproc, pipeline := s.pipeline,
             dataout := s.dataout, phase := 0 }
    else
      -- next iteration of the stall loop: `ready.next = False`, `yield`
      some { ready := false, dataproc := s.dataproc, pipeline := s.pipeline,
             dataout := s.dataout, phase := s.phase + 1 }

/-- The committed state just after clock edge `t` (with `t = 0` the
simulation-start run); `none` once the generator has raised. -/
def states (ctp : Nat) (piped : Bool) (din : Nat → Sample) : Nat → Option CoreState
  | 0 => initCore ctp piped (din 0)
  | t + 1 => (states ctp piped din t).bind fun s => stepCore ctp piped s (din (t + 1))

/-- The combinational block `beh_ready`: readiness exposed to the upstream
producer (`datain.ready`).  `buffered` is `self.buffered`, `ready` the state
machine's own latch, `bufReady` the `ready` of the internal stream
`buffered_data_i` fed by the input-side FIFO. -/
def beh_ready (buffered : Bool) (ready bufReady : Bool) : Bool :=
  if buffered then ready && bufReady else ready

/-- `stepCore` with the environment's `dataout.ready` made explicit: the
generator never reads `dataout.ready`, so the argument is ignored. -/
def stepCoreR (ctp : Nat) (piped : Bool) (s : CoreState) (din : Sample)
    (doutReady : Bool) : Option CoreState :=
  stepCore ctp piped s din

/-- State trace when the environment additionally drives `dataout.ready`
(trace `dr`); the generator never reads it. -/
def statesR (ctp : Nat) (piped : Bool) (din : Nat → Sample) (dr : Nat → Bool) :
    Nat → Option CoreState
  | 0 => initCore ctp piped (din 0)
  | t + 1 => (statesR ctp piped din dr t).bind fun s =>
      stepCoreR ctp piped s (din (t + 1)) (dr (t + 1))

example : (states 3 false (fun t => ⟨t, true⟩) 3).map CoreState.dataout = some ⟨0, true⟩ := by decide

example : (states 3 false (fun t => ⟨t, true⟩) 2).map CoreState.ready = some true := by decide

example : (states 2 true (fun t => ⟨t, true⟩) 4).map CoreState.dataout = some ⟨2, true⟩ := by decide

example : states 1 true (fun _ => sInit) 0 = none := by decide

/-!
Embedding of the Python-value-level surface of the constructor
`ProcessingSubblock.__init__` and the wiring method `process`.  `assert`
failures are modelled as `none`.
-/

/-- A Python value, as far as the constructor's `isinstance`/comparison
checks can distinguish them. -/
inductive PyVal where
  | none
  | int (n : Int)
  | bool (b : Bool)
  | str (s : String)
  | tuple (xs : List PyVal)

/-- Python `isinstance(x, int)`; `bool` is a subclass of `int`. -/
def isinstance_int : PyVal → Bool
  | .int _ => true
  | .bool _ => true
  | _ => false

/-- The integer value of an `int`-instance (`True` counts as `1`). -/
def py_int_val : PyVal → Int
  | .int n => n
  | .bool b => if b then 1 else 0
  | _ => 0

/-- Python `isinstance(x, bool)`. -/
def isinstance_bool : PyVal → Bool
  | .bool _ => true
  | _ => false

/-- The boolean value of a `bool`-instance. -/
def py_bool_val : PyVal → Bool
  | .bool b => b
  | _ => false

/-- Python `isinstance(x, tuple)`. -/
def isinstance_tuple : PyVal → Bool
  | .tuple _ => true
  | _ => false

/-- Python `len` on a tuple. -/
def py_len : PyVal → Nat
  | .tuple xs => xs.length
  | _ => 0

/-- Python `isinstance(x, str)`. -/
def isinstance_str : PyVal → Bool
  | .str _ => true
  | _ => false

/-- The string value of a `str`-instance. -/
def py_str_val : PyVal → String
  | .str s => s
  | _ => ""

/-- Python `x is None`. -/
def is_none : PyVal → Bool
  | .none => true
  | _ => false

/-- The fields of a constructed `ProcessingSubblock`: `self.ctp`,
`self.pipe`, `self.block_size`, `self.buffer_type`, `self.buffered` and the
presence of the two `FIFOReadyValid` instances `self.fifo_i` / `self.fifo_o`
(`true` when instantiated, `false` when set to `None`). -/
structure Psb where
  ctp : Nat
  pipe : Bool
  block_size : PyVal
  buffer_type : String
  buffered : Bool
  fifo_i : Bool
  fifo_o : Bool

/-- `ProcessingSubblock.__init__`: the `assert` chain followed by the field
assignments.  Each failed `assert` is `none`. -/
def psb_init (cycles_to_process pipelined block_size buffered : PyVal) :
    Option Psb :=
  if isinstance_int cycles_to_process = false then none
  else if py_int_val cycles_to_process ≤ 0 then none
  else if isinstance_bool pipelined = false then none
  else if is_none block_size = false ∧
      (isinstance_tuple block_size = false ∨ py_len block_size ≠ 2) then none
  else if isinstance_bool buffered = false ∧ isinstance_str buffered = false then
    none
  else if isinstance_str buffered = true ∧ py_str_val buffered ≠ "input" ∧
      py_str_val buffered ≠ "output" then none
  else
    let bt : String :=
      if isinstance_str buffered then py_str_val buffered
      else if py_bool_val buffered then "both" else "none"
    let bb : Bool := if isinstance_str buffered then true else py_bool_val buffered
    some { ctp := (py_int_val cycles_to_process).toNat,
           pipe := py_bool_val pipelined,
           block_size := block_size,
           buffer_type := bt,
           buffered := bb,
           fifo_i := bb,
           fifo_o := bb }

/-- The configurations claim C7 (as amended) accepts: `cycles_to_process` an
`int` instance (hence possibly a `bool`) with positive value, `pipelined` a
`bool`, `block_size` either `None` or a tuple of length two (its elements are
not inspected), `buffered` a `bool` or one of the strings `"input"` /
`"output"`. -/
def validCfg (cycles_to_process pipelined block_size buffered : PyVal) : Prop :=
  isinstance_int cycles_to_process = true ∧ 0 < py_int_val cycles_to_process ∧
  isinstance_bool pipelined = true ∧
  (block_size = PyVal.none ∨
    (isinstance_tuple block_size = true ∧ py_len block_size = 2)) ∧
  (isinstance_bool buffered = true ∨
    (isinstance_str buffered = true ∧
      (py_str_val buffered = "input" ∨ py_str_val buffered = "output")))

/-- What `ProcessingSubblock.process` builds when wiring succeeds: the common
stream width and which FIFO instances were wired around the core (the source
wires either both or neither, keyed on `self.buffered`). -/
structure WiredStage where
  width : Nat
  fifo_i_wired : Bool
  fifo_o_wired : Bool
  ctp : Nat
  pipe : Bool
deriving DecidableEq, Repr

/-- `ProcessingSubblock.process` at wiring time: asserts
`len(datain.data) == len(dataout.data)` and then builds the block; the
only data-dependent failure is the width equality. -/
def process_wire (p : Psb) (win wout : Nat) : Option WiredStage :=
  if win = wout then
    some { width := win, fifo_i_wired := p.buffered, fifo_o_wired := p.buffered,
           ctp := p.ctp, pipe := p.pipe }
  else none

example : (psb_init (.int 1) (.bool false) (.tuple [.int 0, .int (-3)]) (.bool false)).isSome = true := rfl

example : (psb_init (.int 1) (.bool false) .none (.str "input")).map Psb.fifo_o = some true := rfl

example : (psb_init (.int 1) (.bool false) .none (.str "output")).map (fun q => beh_ready q.buffered true false) = some false := rfl

example : (psb_init (.int 0) (.bool false) .none (.bool false)) = Option.none := rfl

/-!
Characterization of the non-pipelined (stalling) run of the state machine.
-/

theorem states_succ (k : Nat) (p : Bool) (din : Nat → Sample) (t : Nat) :
    states k p din (t + 1) =
      (states k p din t).bind (fun s => stepCore k p s (din (t + 1))) := rfl

theorem stepCore_capture1 (s : CoreState) (din : Sample) (h0 : s.phase = 0) :
    stepCore 1 false s din =
      some ⟨true, din, s.pipeline, s.dataproc, 0⟩ := by
  simp [stepCore, h0]

theorem stepCore_capture (k : Nat) (s : CoreState) (din : Sample)
    (h0 : s.phase = 0) (hk : k ≠ 1) :
    stepCore k false s din =
      some ⟨false, din, s.pipeline, s.dataproc, 1⟩ := by
  simp [stepCore, h0, hk]

theorem stepCore_relax (k : Nat) (s : CoreState) (din : Sample)
    (h0 : s.phase ≠ 0) (h1 : s.phase = k - 1) :
    stepCore k false s din =
      some ⟨true, s.dataproc, s.pipeline, s.dataout, 0⟩ := by
  have hne : k - 1 ≠ 0 := h1 ▸ h0
  simp [stepCore, h0, h1, hne]

theorem stepCore_stall (k : Nat) (s : CoreState) (din : Sample)
    (h0 : s.phase ≠ 0) (h1 : s.phase ≠ k - 1) :
    stepCore k false s din =
      some ⟨false, s.dataproc, s.pipeline, s.dataout, s.phase + 1⟩ := by
  simp [stepCore, h0, h1]

/-- Warm-up phase of the non-pipelined machine: from simulation start to the
first re-assertion of readiness at state index `k - 1`, the machine holds the
simulation-start sample `din 0` in `dataproc`, keeps `dataout` at its initial
contents and walks its stall loop. -/
theorem initNP (k : Nat) (din : Nat → Sample) (hk : 1 ≤ k) :
    ∀ j, j ≤ k - 1 →
      states k false din j =
        some ⟨decide (j = k - 1), din 0, List.replicate (k - 1) sInit, sInit,
              (j + 1) % k⟩ := by
  intro j
  induction j with
  | zero =>
    intro _
    by_cases h1 : k = 1
    · subst h1
      simp [states, initCore]
    · show initCore k false (din 0) = _
      rw [show initCore k false (din 0) =
        some ⟨false, din 0, List.replicate (k - 1) sInit, sInit, 1⟩ by
          simp [initCore, h1]]
      rw [decide_eq_false (by omega), Nat.mod_eq_of_lt (by omega)]
  | succ n ih =>
    intro hn
    have hk2 : 2 ≤ k := by omega
    have hs := ih (by omega)
    rw [Nat.mod_eq_of_lt (show n + 1 < k by omega)] at hs
    rw [states_succ, hs, Option.some_bind]
    by_cases hlast : n + 1 = k - 1
    · rw [stepCore_relax k _ _ (by simp) (by simpa using hlast)]
      have e1 : decide (n + 1 = k - 1) = true := decide_eq_true hlast
      have e2 : (n + 1 + 1) % k = 0 := by
        rw [show n + 1 + 1 = k by omega]; exact Nat.mod_self k
      simp [e1, e2]
    · rw [stepCore_stall k _ _ (by simp) (by simpa using hlast)]
      have e1 : decide (n + 1 = k - 1) = false := decide_eq_false hlast
      have e2 : (n + 1 + 1) % k = n + 1 + 1 := Nat.mod_eq_of_lt (by omega)
      simp [e1, e2]

/-- One full period of the non-pipelined machine, started from any state with
`phase = 0`: at the next edge the machine captures the current input sample
into `dataproc` and presents the previous capture on `dataout`; readiness then
stays de-asserted until it is re-asserted exactly `k` edges after the period
began. -/
theorem periodNP (k T0 : Nat) (din : Nat → Sample) (s : CoreState) (hk : 1 ≤ k)
    (hs : states k false din T0 = some s) (hp : s.phase = 0) :
    ∀ j, 1 ≤ j → j ≤ k →
      states k false din (T0 + j) =
        some ⟨decide (j = k), din (T0 + 1), s.pipeline, s.dataproc, j % k⟩ := by
  intro j
  induction j with
  | zero => omega
  | succ n ih =>
    intro _ hnk
    cases Nat.eq_zero_or_pos n with
    | inl hn0 =>
      subst hn0
      rw [show T0 + 1 = T0 + 0 + 1 by omega, states_succ]
      rw [show T0 + 0 = T0 by omega, hs, Option.some_bind]
      by_cases h1 : k = 1
      · subst h1
        rw [stepCore_capture1 _ _ hp]
        simp
      · rw [stepCore_capture k _ _ hp h1]
        have e1 : decide (0 + 1 = k) = false := decide_eq_false (by omega)
        have e2 : (0 + 1) % k = 1 := Nat.mod_eq_of_lt (by omega)
        simp [e1, e2]
    | inr hn1 =>
      have hs' := ih hn1 (by omega)
      have hnk' : n < k := by omega
      rw [Nat.mod_eq_of_lt hnk'] at hs'
      rw [show T0 + (n + 1) = T0 + n + 1 by omega, states_succ, hs',
        Option.some_bind]
      by_cases hlast : n = k - 1
      · rw [stepCore_relax k _ _ (by simp; omega) (by simpa using hlast)]
        have e1 : decide (n + 1 = k) = true := decide_eq_true (by omega)
        have e2 : (n + 1) % k = 0 := by
          rw [show n + 1 = k by omega]; exact Nat.mod_self k
        simp [e1, e2]
      · rw [stepCore_stall k _ _ (by simp; omega) (by simpa using hlast)]
        have e1 : decide (n + 1 = k) = false := decide_eq_false (by omega)
        have e2 : (n + 1) % k = n + 1 := Nat.mod_eq_of_lt (by omega)
        simp [e1, e2]

/-- Global shape of the non-pipelined run at the period boundaries: just
after edge `k - 1 + m * k` the machine is ready (`phase = 0`), is holding the
sample captured at edge `m * k` in `dataproc`, and is presenting the sample
captured one period earlier on `dataout` (initial stream contents for the
first period). -/
theorem fullNP (k : Nat) (din : Nat → Sample) (hk : 1 ≤ k) :
    ∀ m, states k false din (k - 1 + m * k) =
      some ⟨true, din (m * k), List.replicate (k - 1) sInit,
            (if m = 0 then sInit else din ((m - 1) * k)), 0⟩ := by
  intro m
  induction m with
  | zero =>
    have h := initNP k din hk (k - 1) (by omega)
    rw [decide_eq_true rfl] at h
    rw [show k - 1 + 0 * k = k - 1 by omega]
    rw [h, show (k - 1 + 1) % k = 0 by
      rw [show k - 1 + 1 = k by omega]; exact Nat.mod_self k]
    simp
  | succ m ih =>
    have h := periodNP k (k - 1 + m * k) din _ hk ih rfl k (by omega)
      (by omega)
    rw [decide_eq_true rfl, Nat.mod_self] at h
    have hmul : (m + 1) * k = m * k + k := Nat.succ_mul m k
    rw [show k - 1 + (m + 1) * k = k - 1 + m * k + k by omega, h]
    have e1 : k - 1 + m * k + 1 = (m + 1) * k := by omega
    rw [e1]
    simp [show ¬ (m + 1 = 0) by omega, show m + 1 - 1 = m by omega]

/-!
Characterization of the pipelined run of the state machine.
-/

theorem pipeShift_of_ne_nil (l : List Sample) (d : Sample) (h : l ≠ []) :
    pipeShift l d = some (d :: l.dropLast, l.getLastD sInit) := by
  cases l with
  | nil => exact absurd rfl h
  | cons p ps => rfl

theorem mapRange_dropLast (n : Nat) (f : Nat → Sample) :
    ((List.range (n + 1)).map f).dropLast = (List.range n).map f := by
  rw [List.range_succ, List.map_append]
  simp

theorem mapRange_getLastD (n : Nat) (f : Nat → Sample) (d : Sample) :
    ((List.range (n + 1)).map f).getLastD d = f n := by
  rw [List.range_succ, List.map_append]
  simp

theorem mapRange_cons (n : Nat) (f g : Nat → Sample) (a : Sample)
    (h0 : a = g 0) (h : ∀ j, f j = g (j + 1)) :
    a :: (List.range n).map f = (List.range (n + 1)).map g := by
  rw [List.range_succ_eq_map, List.map_cons, List.map_map]
  rw [h0, show f = (g ∘ Nat.succ) from funext h]

/-- Full characterization of the pipelined run (`cycles_to_process = k ≥ 2`):
readiness stays asserted forever, the register file holds the last `k - 1`
input samples, `dataproc` trails the input by `k - 1` edges and the output
register by `k` edges (initial stream contents before the pipeline fills). -/
theorem statesP (k : Nat) (din : Nat → Sample) (hk : 2 ≤ k) :
    ∀ t, states k true din t =
      some ⟨true,
            (if k - 1 ≤ t then din (t - (k - 1)) else sInit),
            (List.range (k - 1)).map (fun j => if j ≤ t then din (t - j) else sInit),
            (if k ≤ t then din (t - k) else sInit),
            0⟩ := by
  obtain ⟨m, rfl⟩ : ∃ m, k = m + 2 := ⟨k - 2, by omega⟩
  have hm1 : m + 2 - 1 = m + 1 := by omega
  intro t
  induction t with
  | zero =>
    show initCore (m + 2) true (din 0) = _
    rw [initCore]
    simp only [hm1]
    rw [show List.replicate (m + 1) sInit = List.replicate m sInit ++ [sInit]
      from List.replicate_succ' m sInit]
    rw [pipeShift_of_ne_nil _ _ (by simp)]
    simp only [List.dropLast_concat, List.getLastD_concat]
    have hpl : din 0 :: List.replicate m sInit =
        (List.range (m + 1)).map (fun j => if j ≤ 0 then din (0 - j) else sInit) := by
      rw [show List.replicate m sInit = (List.range m).map (fun _ => sInit) by
        rw [List.map_const', List.length_range]]
      exact mapRange_cons m (fun _ => sInit)
        (fun j => if j ≤ 0 then din (0 - j) else sInit) (din 0) (by simp)
        (by intro j; simp)
    rw [hpl]
    simp
  | succ t ih =>
    rw [states_succ, ih, Option.some_bind]
    rw [stepCore]
    simp only [if_true]
    rw [show ((List.range (m + 2 - 1)).map
        (fun j => if j ≤ t then din (t - j) else sInit)) =
        ((List.range (m + 1)).map
        (fun j => if j ≤ t then din (t - j) else sInit)) from by rw [hm1]]
    rw [pipeShift_of_ne_nil _ _ (by simp)]
    rw [mapRange_dropLast, mapRange_getLastD]
    have hpl : din (t + 1) :: (List.range m).map
        (fun j => if j ≤ t then din (t - j) else sInit) =
        (List.range (m + 1)).map
        (fun j => if j ≤ t + 1 then din (t + 1 - j) else sInit) := by
      refine mapRange_cons m _ _ (din (t + 1)) (by simp) ?_
      intro j
      by_cases hj : j ≤ t
      · rw [if_pos hj, if_pos (by omega)]
        exact congrArg din (by omega)
      · rw [if_neg hj, if_neg (by omega)]
    rw [hpl]
    have hdp : (if m ≤ t then din (t - m) else sInit) =
        (if m + 2 - 1 ≤ t + 1 then din (t + 1 - (m + 2 - 1)) else sInit) := by
      rw [hm1]
      by_cases hj : m ≤ t
      · rw [if_pos hj, if_pos (by omega)]
        exact congrArg din (by omega)
      · rw [if_neg hj, if_neg (by omega)]
    have hdo : (if m + 2 - 1 ≤ t then din (t - (m + 2 - 1)) else sInit) =
        (if m + 2 ≤ t + 1 then din (t + 1 - (m + 2)) else sInit) := by
      rw [hm1]
      by_cases hj : m + 1 ≤ t
      · rw [if_pos hj, if_pos (by omega)]
        exact congrArg din (by omega)
      · rw [if_neg hj, if_neg (by omega)]
    rw [hdp, hdo]
    simp [hm1]

/-!
Control-flow independence: the readiness latch, the resumption point and the
register-update schedule of `processing_model` never depend on the values
travelling on the streams.
-/

/-- The control portion of a state: readiness latch, resumption point and
register-file length (all that the next transition's control flow reads). -/
def ctrl (s : CoreState) : Bool × Nat × Nat :=
  (s.ready, s.phase, s.pipeline.length)

theorem ctrl_step (k : Nat) (p : Bool) (s₁ s₂ : CoreState) (d₁ d₂ : Sample)
    (h : ctrl s₁ = ctrl s₂) :
    (stepCore k p s₁ d₁).map ctrl = (stepCore k p s₂ d₂).map ctrl := by
  obtain ⟨hr, hp, hl⟩ : s₁.ready = s₂.ready ∧ s₁.phase = s₂.phase ∧
      s₁.pipeline.length = s₂.pipeline.length := by
    simpa [ctrl, Prod.ext_iff] using h
  cases p with
  | false =>
    by_cases h0 : s₁.phase = 0
    · have h0' : s₂.phase = 0 := by rw [← hp]; exact h0
      by_cases h1 : k = 1
      · subst h1
        rw [stepCore_capture1 _ _ h0, stepCore_capture1 _ _ h0']
        simp [ctrl, hl]
      · rw [stepCore_capture k _ _ h0 h1, stepCore_capture k _ _ h0' h1]
        simp [ctrl, hl]
    · have h0' : ¬ s₂.phase = 0 := by rw [← hp]; exact h0
      by_cases h1 : s₁.phase = k - 1
      · rw [stepCore_relax k _ _ h0 h1, stepCore_relax k _ _ h0' (by rw [← hp]; exact h1)]
        simp [ctrl, hl]
      · rw [stepCore_stall k _ _ h0 h1, stepCore_stall k _ _ h0' (by rw [← hp]; exact h1)]
        simp [ctrl, hl, hp]
  | true =>
    cases hc1 : s₁.pipeline with
    | nil =>
      have hc2 : s₂.pipeline = [] := List.length_eq_zero.mp (by rw [← hl, hc1]; rfl)
      simp [stepCore, pipeShift, hc1, hc2]
    | cons q qs =>
      cases hc2 : s₂.pipeline with
      | nil =>
        rw [hc1, hc2] at hl
        simp at hl
      | cons r rs =>
        rw [hc1, hc2] at hl
        simp only [List.length_cons] at hl
        simp only [stepCore, if_true, hc1, hc2, pipeShift]
        simp [ctrl, hr, List.length_dropLast, hl]

theorem ctrl_indep (k : Nat) (p : Bool) (din₁ din₂ : Nat → Sample) :
    ∀ t, (states k p din₁ t).map ctrl = (states k p din₂ t).map ctrl := by
  intro t
  induction t with
  | zero =>
    show (initCore k p (din₁ 0)).map ctrl = (initCore k p (din₂ 0)).map ctrl
    cases p with
    | false =>
      by_cases h1 : k = 1 <;> simp [initCore, h1, ctrl]
    | true =>
      cases hk : k - 1 with
      | zero => simp [initCore, hk, pipeShift]
      | succ n => simp [initCore, hk, List.replicate_succ, pipeShift, ctrl]
  | succ t ih =>
    rw [states_succ, states_succ]
    cases e1 : states k p din₁ t with
    | none =>
      rw [e1] at ih
      have e2 : states k p din₂ t = none := by
        cases e2 : states k p din₂ t with
        | none => rfl
        | some s => rw [e2] at ih; simp at ih
      rw [e2]
      rfl
    | some s₁ =>
      cases e2 : states k p din₂ t with
      | none => rw [e1, e2] at ih; simp at ih
      | some s₂ =>
        rw [e1, e2] at ih
        simp only [Option.map_some', Option.some.injEq] at ih
        rw [Option.some_bind, Option.some_bind]
        exact ctrl_step k p s₁ s₂ _ _ ih

/-!
Shape of the values produced by the constructor.
-/

theorem is_none_iff (v : PyVal) : is_none v = true ↔ v = PyVal.none := by
  cases v <;> simp [is_none]

/-- The fields a successful construction assigns (in particular, both FIFO
slots are filled, and filled identically, whenever `buffered` resolves to a
truthy value — also for the one-sided string requests). -/
theorem psb_init_fields (c p bs bf : PyVal) (q : Psb)
    (h : psb_init c p bs bf = some q) :
    q.ctp = (py_int_val c).toNat ∧ q.pipe = py_bool_val p ∧
    q.block_size = bs ∧
    q.buffered = (if isinstance_str bf then true else py_bool_val bf) ∧
    q.fifo_i = q.buffered ∧ q.fifo_o = q.buffered ∧
    q.buffer_type = (if isinstance_str bf then py_str_val bf
      else if py_bool_val bf then "both" else "none") := by
  unfold psb_init at h
  split_ifs at h <;>
    first
      | exact Option.noConfusion h
      | (injection h with h; subst h; simp_all)

theorem validCfg_of_guards (c p bs bf : PyVal)
    (h1 : ¬ isinstance_int c = false) (h2 : ¬ py_int_val c ≤ 0)
    (h3 : ¬ isinstance_bool p = false)
    (h4 : ¬(is_none bs = false ∧ (isinstance_tuple bs = false ∨ py_len bs ≠ 2)))
    (h5 : ¬(isinstance_bool bf = false ∧ isinstance_str bf = false))
    (h6 : ¬(isinstance_str bf = true ∧ py_str_val bf ≠ "input" ∧
        py_str_val bf ≠ "output")) :
    validCfg c p bs bf := by
  refine ⟨by simpa using h1, by omega, by simpa using h3, ?_, ?_⟩
  · by_cases hn : bs = PyVal.none
    · exact Or.inl hn
    · right
      have hnf : is_none bs = false := by
        cases bs <;> simp_all [is_none]
      have hb : ¬(isinstance_tuple bs = false ∨ py_len bs ≠ 2) :=
        fun b => h4 ⟨hnf, b⟩
      push_neg at hb
      exact ⟨by simpa using hb.1, hb.2⟩
  · by_cases hbb : isinstance_bool bf = true
    · exact Or.inl hbb
    · right
      have hbf : isinstance_bool bf = false := by
        revert hbb; cases isinstance_bool bf <;> simp
      have hstr : isinstance_str bf = true := by
        rcases Bool.eq_false_or_eq_true (isinstance_str bf) with hx | hx
        · exact hx
        · exact absurd ⟨hbf, hx⟩ h5
      refine ⟨hstr, ?_⟩
      by_cases hin : py_str_val bf = "input"
      · exact Or.inl hin
      · by_cases hout : py_str_val bf = "output"
        · exact Or.inr hout
        · exact absurd ⟨hstr, hin, hout⟩ h6

/-- The constructor succeeds exactly on `validCfg` configurations. -/
theorem psb_init_isSome_iff (c p bs bf : PyVal) :
    (psb_init c p bs bf).isSome = true ↔ validCfg c p bs bf := by
  constructor
  · intro h
    unfold psb_init at h
    split_ifs at h with h1 h2 h3 h4 h5 h6 <;>
      first
        | exact validCfg_of_guards c p bs bf h1 h2 h3 h4 h5 h6
        | simp at h
  · intro hv
    obtain ⟨hv1, hv2, hv3, hv4, hv5⟩ := hv
    unfold psb_init
    split_ifs with h1 h2 h3 h4 h5 h6
    · rw [hv1] at h1; simp at h1
    · omega
    · rw [hv3] at h3; simp at h3
    · rcases hv4 with hn | ⟨ht, hl⟩
      · rw [hn] at h4; simp [is_none] at h4
      · rcases h4.2 with hx | hx
        · rw [ht] at hx; simp at hx
        · exact absurd hl hx
    · rcases hv5 with hb | ⟨hs, _⟩
      · rw [hb] at h5; simp at h5
      · rw [hs] at h5; simp at h5
    · rcases hv5 with hb | ⟨hs, hio⟩
      · cases bf <;> simp_all [isinstance_bool, isinstance_str]
      · rcases hio with hx | hx
        · exact absurd hx h6.2.1
        · exact absurd hx h6.2.2
    all_goals simp

theorem statesR_eq_states (k : Nat) (p : Bool) (din : Nat → Sample)
    (dr : Nat → Bool) : ∀ t, statesR k p din dr t = states k p din t := by
  intro t
  induction t with
  | zero => rfl
  | succ t ih =>
    show (statesR k p din dr t).bind _ = (states k p din t).bind _
    rw [ih]
    rfl

/-!
The claims.
-/

/-- C1 counterexample: the configuration `cycles_to_process = 1,
pipelined = True, buffered = False` is accepted by the constructor and wires
successfully, yet the state machine's trace is already dead at simulation
start (`pipeline[0]` on an empty register file), so of any injected samples
none ever emerges on the output stream — refuting the claim quantified over
every valid configuration. -/
theorem C1_counterexample :
    ((psb_init (.int 1) (.bool true) .none (.bool false)).map
      (fun q => ((process_wire q 8 8).isSome,
        states q.ctp q.pipe (fun t => ⟨t, true⟩) 0))) =
      some (true, Option.none) := rfl

/-- C1 (amended): in the unbuffered configurations other than
`pipelined ∧ cycles_to_process = 1`, samples traverse the stage exactly once,
in order, with latency `cycles_to_process`: pipelined (`k ≥ 2`) — readiness is
always asserted and the sample read at edge `t` is presented on the output at
edge `t + k`; non-pipelined — upstream readiness is asserted exactly at the
edges `(m+1)·k` (the states committed at `k - 1 + m·k`), and the sample read
at the accepting edge `m·k` is presented on the output during the `k` edges
`(m+1)·k … (m+1)·k + k - 1`.  Hence `N` samples injected at the ready edges
emerge exactly once each, in injection order. -/
theorem C1_amended_loss_freedom (k : Nat) (din : Nat → Sample) :
    (2 ≤ k → ∀ t,
      (states k true din t).map CoreState.ready = some true ∧
      (states k true din (t + k)).map CoreState.dataout = some (din t))
    ∧ (1 ≤ k → ∀ m,
      (states k false din (k - 1 + m * k)).map CoreState.ready = some true ∧
      (∀ r, 1 ≤ r → r < k →
        (states k false din (k - 1 + m * k + r)).map CoreState.ready = some false) ∧
      (∀ j, j < k →
        (states k false din ((m + 1) * k + j)).map CoreState.dataout =
          some (din (m * k)))) := by
  constructor
  · intro hk t
    constructor
    · rw [statesP k din hk t]
      rfl
    · rw [statesP k din hk (t + k)]
      simp only [Option.map_some']
      rw [if_pos (Nat.le_add_left k t)]
      exact congrArg some (congrArg din (by omega))
  · intro hk m
    have hfull := fullNP k din hk m
    refine ⟨by rw [hfull]; rfl, ?_, ?_⟩
    · intro r hr1 hrk
      have h := periodNP k (k - 1 + m * k) din _ hk hfull rfl r hr1 (by omega)
      rw [h]
      simp only [Option.map_some']
      rw [decide_eq_false (by omega : ¬ r = k)]
    · intro j hj
      have h := periodNP k (k - 1 + m * k) din _ hk hfull rfl (j + 1) (by omega)
        (by omega)
      have hmul : (m + 1) * k = m * k + k := Nat.succ_mul m k
      have harith : k - 1 + m * k + (j + 1) = (m + 1) * k + j := by omega
      rw [harith] at h
      rw [h]
      rfl

/-- C1 witness: `k = 3`, non-pipelined — the sample read at accepting edge 3
is on the output during edges 6, 7, 8; and `k = 2`, pipelined — the sample
read at edge 2 is on the output at edge 4. -/
theorem C1_witness :
    (states 2 true (fun t => ⟨t, true⟩) (2 + 2)).map CoreState.dataout =
      some ⟨2, true⟩
    ∧ (states 3 false (fun t => ⟨t, true⟩) ((1 + 1) * 3 + 2)).map
        CoreState.dataout = some ⟨3, true⟩ :=
  ⟨((C1_amended_loss_freedom 2 (fun t => ⟨t, true⟩)).1 (by decide) 2).2,
   ((C1_amended_loss_freedom 3 (fun t => ⟨t, true⟩)).2 (by decide) 1).2.2 2
     (by decide)⟩

/-- C2: non-pipelined, unbuffered, `cycles_to_process = k`: when the machine
is at the start of a period (`phase = 0` committed at `T0`, readiness
asserted), so that the upstream sample `din (T0+1)` is accepted at edge
`T = T0 + 1`, the upstream-visible readiness (the latch committed at
`T0 + j`) is de-asserted for edges `T+1 … T+k-1`, re-asserted at edge `T+k`,
and the accepted sample is committed onto the output stream at edge `T+k`
(the state committed at `T0 + k + 1`). -/
theorem C2_nonpipelined_stall (k T0 : Nat) (din : Nat → Sample) (s : CoreState)
    (hk : 1 ≤ k)
    (hs : states k false din T0 = some s)
    (hphase : s.phase = 0) (hready : s.ready = true)
    (hvalid : (din (T0 + 1)).valid = true) :
    (∀ j, 1 ≤ j → j ≤ k - 1 →
      (states k false din (T0 + j)).map CoreState.ready = some false)
    ∧ (states k false din (T0 + k)).map CoreState.ready = some true
    ∧ (states k false din (T0 + k + 1)).map CoreState.dataout =
        some (din (T0 + 1)) := by
  refine ⟨?_, ?_, ?_⟩
  · intro j hj1 hjk
    have h := periodNP k T0 din s hk hs hphase j hj1 (by omega)
    rw [h]
    simp only [Option.map_some']
    rw [decide_eq_false (by omega : ¬ j = k)]
  · have h := periodNP k T0 din s hk hs hphase k (by omega) (by omega)
    rw [h]
    simp
  · have h := periodNP k T0 din s hk hs hphase k (by omega) (by omega)
    rw [decide_eq_true rfl, Nat.mod_self] at h
    have h2 := periodNP k (T0 + k) din _ hk h rfl 1 (by omega) (by omega)
    rw [h2]
    rfl

/-- C2 witness: `k = 3`, sample `⟨3, true⟩` accepted at edge 3 (period start
committed at `T0 = 2`): readiness low at edges 4 and 5, high again at edge 6,
and the sample is on the output from edge 6. -/
theorem C2_witness :
    (states 3 false (fun t => ⟨t, true⟩) (2 + 1)).map CoreState.ready =
      some false
    ∧ (states 3 false (fun t => ⟨t, true⟩) (2 + 3)).map CoreState.ready =
        some true
    ∧ (states 3 false (fun t => ⟨t, true⟩) (2 + 3 + 1)).map CoreState.dataout =
        some ⟨3, true⟩ := by
  have h := C2_nonpipelined_stall 3 2 (fun t => ⟨t, true⟩)
    ⟨true, ⟨0, true⟩, [sInit, sInit], sInit, 0⟩ (by decide) (by decide) rfl rfl
    rfl
  exact ⟨h.1 1 (by decide) (by decide), h.2.1, h.2.2⟩

/-- C3 counterexample: at `cycles_to_process = 1` the pipelined machine dies
at simulation start, so readiness is not asserted at edge 0 (there is no
committed state at all) — refuting the claim's quantification over every `k`. -/
theorem C3_counterexample :
    ¬ ((states 1 true (fun t => ⟨t, true⟩) 0).map CoreState.ready =
        some true) := by decide

/-- C3 (amended): pipelined, unbuffered, `cycles_to_process = k ≥ 2`:
readiness stays asserted on every edge and the sample read at edge `t`
appears on the output at edge `t + k` — full throughput, fixed latency `k`;
for `k = 1` the machine instead dies at simulation start (see C4). -/
theorem C3_amended_pipelined (k : Nat) (din : Nat → Sample) (hk : 2 ≤ k) :
    (∀ t, (states k true din t).map CoreState.ready = some true)
    ∧ (∀ t, (states k true din (t + k)).map CoreState.dataout =
        some (din t)) := by
  constructor
  · intro t
    rw [statesP k din hk t]
    rfl
  · intro t
    rw [statesP k din hk (t + k)]
    simp only [Option.map_some']
    rw [if_pos (Nat.le_add_left k t)]
    exact congrArg some (congrArg din (by omega))

/-- C3 witness: `k = 2` — readiness high at edge 4, and the sample read at
edge 3 is on the output at edge 5. -/
theorem C3_witness :
    (states 2 true (fun t => ⟨t, true⟩) 4).map CoreState.ready = some true
    ∧ (states 2 true (fun t => ⟨t, true⟩) (3 + 2)).map CoreState.dataout =
        some ⟨3, true⟩ :=
  ⟨(C3_amended_pipelined 2 (fun t => ⟨t, true⟩) (by decide)).1 4,
   (C3_amended_pipelined 2 (fun t => ⟨t, true⟩) (by decide)).2 3⟩

/-- C4: construction (`cycles_to_process = 1, pipelined = True`) and wiring
both succeed, yet the running state machine dies at its very first run: the
pipelined branch evaluates `pipeline[0]` on the empty register file
(`IndexError` at simulation time 0) — the code contradicts the documented
design in which all failures are static. -/
theorem C4_pipelined_ctp1_crash :
    ((psb_init (.int 1) (.bool true) .none (.bool false)).map
      (fun q => ((process_wire q 16 16).isSome,
        states q.ctp q.pipe (fun _ => sInit) 0))) =
      some (true, Option.none) := rfl

/-- C5 counterexample: requesting `buffered = 'input'` nevertheless
instantiates the output-side FIFO (`fifo_o`) and wires it — refuting
"exactly one elastic buffer on that required side only". -/
theorem C5_counterexample :
    (psb_init (.int 1) (.bool false) .none (.str "input")).map
      (fun q => (q.fifo_o, (process_wire q 8 8).map WiredStage.fifo_o_wired)) =
      some (true, some true) := rfl

/-- C5 (amended): a string buffering request (`'input'` or `'output'`) only
records the side in `buffer_type`; the construction and wiring otherwise
behave exactly as for `buffered = True`: both FIFOs are instantiated and both
sides are wired through them. -/
theorem C5_amended_buffers (c p bs : PyVal) (str : String) (q : Psb)
    (h : psb_init c p bs (.str str) = some q) :
    q.buffer_type = str ∧ q.buffered = true ∧ q.fifo_i = true ∧
    q.fifo_o = true ∧
    ∀ w : Nat, (process_wire q w w).map
      (fun ws => (ws.fifo_i_wired, ws.fifo_o_wired)) = some (true, true) := by
  obtain ⟨h1, h2, h3, h4, h5, h6, h7⟩ := psb_init_fields _ _ _ _ q h
  simp only [isinstance_str, py_str_val, if_pos] at h4 h7
  refine ⟨h7, h4, by rw [h5, h4], by rw [h6, h4], ?_⟩
  intro w
  simp [process_wire, h4]

/-- C5 witness: the `'output'` request wires both FIFO sides. -/
theorem C5_witness :
    (process_wire ⟨2, false, PyVal.none, "output", true, true, true⟩ 8 8).map
      (fun ws => (ws.fifo_i_wired, ws.fifo_o_wired)) = some (true, true) :=
  (C5_amended_buffers (.int 2) (.bool false) .none "output"
    ⟨2, false, PyVal.none, "output", true, true, true⟩ rfl).2.2.2.2 8

/-- C6 counterexample: with output-only buffering requested, the claim
predicts upstream readiness equals the stage's own readiness (`true` here);
the code computes `ready and buffered_data_i.ready = false` instead. -/
theorem C6_counterexample :
    ¬ ((psb_init (.int 1) (.bool false) .none (.str "output")).map
        (fun q => beh_ready q.buffered true false) = some true) := by decide

/-- C6 (amended): the readiness exposed upstream is
`stageReady AND buffered_data_i.ready` whenever any buffering was requested
(`True`, `'input'` or `'output'`), and equals `stageReady` alone exactly when
the request was `False` — the output-only configuration also gates on the
input-side buffered stream. -/
theorem C6_amended_ready (c p bs bf : PyVal) (q : Psb) (r br : Bool)
    (h : psb_init c p bs bf = some q) :
    (bf = .bool false → beh_ready q.buffered r br = r)
    ∧ (bf ≠ .bool false → beh_ready q.buffered r br = (r && br)) := by
  obtain ⟨h1, h2, h3, h4, h5, h6, h7⟩ := psb_init_fields _ _ _ _ q h
  have hv := (psb_init_isSome_iff c p bs bf).mp (by rw [h]; rfl)
  constructor
  · intro hbf
    subst hbf
    simp only [isinstance_str, py_bool_val, if_neg] at h4
    simp [beh_ready, h4]
  · intro hbf
    have hb : q.buffered = true := by
      rcases hv.2.2.2.2 with hbool | ⟨hstr, _⟩
      · cases bf with
        | bool b =>
          cases b with
          | false => exact absurd rfl hbf
          | true => rw [h4]; simp [isinstance_str, py_bool_val]
        | none => simp [isinstance_bool] at hbool
        | int n => simp [isinstance_bool] at hbool
        | str st => simp [isinstance_bool] at hbool
        | tuple xs => simp [isinstance_bool] at hbool
      · rw [h4, if_pos hstr]
    simp [beh_ready, hb]

/-- C6 witness: for `buffered = True` (both sides), exposed readiness is the
conjunction, evaluated at `stageReady = true`, `bufReady = false`. -/
theorem C6_witness :
    beh_ready (⟨3, false, PyVal.none, "both", true, true, true⟩ : Psb).buffered
      true false = (true && false) :=
  (C6_amended_ready (.int 3) (.bool false) .none (.bool true)
    ⟨3, false, PyVal.none, "both", true, true, true⟩ true false rfl).2
    (fun hx => by injection hx with hb; exact Bool.noConfusion hb)

/-- C7 counterexample: `block_size = (0, -3)` is a 2-tuple but not of
positive integers; the claim predicts a construction failure, yet the code
only checks `isinstance(block_size, tuple) and len(block_size) == 2`, so
construction succeeds. -/
theorem C7_counterexample :
    (psb_init (.int 1) (.bool false) (.tuple [.int 0, .int (-3)])
      (.bool false)).isSome = true := rfl

/-- C7 (amended): construction fails exactly when `cycles_to_process` is not
an `int` instance with positive value (Python booleans counting as ints), or
`pipelined` is not a boolean, or `block_size` is neither `None` nor a tuple
of length two (its elements are never inspected), or `buffered` is neither a
boolean nor one of the strings `'input'`/`'output'`; every other
configuration constructs successfully. -/
theorem C7_amended_validation (c p bs bf : PyVal) :
    (psb_init c p bs bf).isSome = true ↔ validCfg c p bs bf :=
  psb_init_isSome_iff c p bs bf

/-- C8: wiring fails exactly when the two stream widths differ, and on
success the wired stage's common width is both the input width and the output
width. -/
theorem C8_wiring_width (q : Psb) (win wout : Nat) :
    ((process_wire q win wout).isSome = true ↔ win = wout)
    ∧ (∀ ws, process_wire q win wout = some ws →
        ws.width = win ∧ ws.width = wout) := by
  constructor
  · unfold process_wire
    split_ifs with h <;> simp [h]
  · intro ws hws
    unfold process_wire at hws
    split_ifs at hws with h
    injection hws with hws
    subst hws
    exact ⟨rfl, h⟩

/-- C8 witness: equal widths wire successfully. -/
theorem C8_witness :
    (process_wire ⟨1, false, PyVal.none, "none", false, false, false⟩ 8 8).isSome
      = true :=
  (C8_wiring_width ⟨1, false, PyVal.none, "none", false, false, false⟩ 8 8).1.mpr
    rfl

/-- C9: `block_size` is pure metadata — two constructions identical except
for `block_size` yield stages with identical state traces on every input
trace, identical exposed readiness, and identical wiring results. -/
theorem C9_blockSize_metadata (c p bs₁ bs₂ bf : PyVal) (q₁ q₂ : Psb)
    (h₁ : psb_init c p bs₁ bf = some q₁)
    (h₂ : psb_init c p bs₂ bf = some q₂) :
    (∀ din t, states q₁.ctp q₁.pipe din t = states q₂.ctp q₂.pipe din t)
    ∧ (∀ r br, beh_ready q₁.buffered r br = beh_ready q₂.buffered r br)
    ∧ (∀ win wout, process_wire q₁ win wout = process_wire q₂ win wout) := by
  obtain ⟨a1, a2, a3, a4, a5, a6, a7⟩ := psb_init_fields _ _ _ _ q₁ h₁
  obtain ⟨b1, b2, b3, b4, b5, b6, b7⟩ := psb_init_fields _ _ _ _ q₂ h₂
  have hc : q₁.ctp = q₂.ctp := by rw [a1, b1]
  have hp : q₁.pipe = q₂.pipe := by rw [a2, b2]
  have hb : q₁.buffered = q₂.buffered := by rw [a4, b4]
  refine ⟨?_, ?_, ?_⟩
  · intro din t
    rw [hc, hp]
  · intro r br
    rw [hb]
  · intro win wout
    unfold process_wire
    rw [hc, hp, hb]

/-- C9 witness: `block_size = None` versus `block_size = (8, 8)`, same
otherwise — identical traces at edge 3. -/
theorem C9_witness :
    states (2 : Nat) false (fun t => ⟨t, true⟩) 3 =
      states (2 : Nat) false (fun t => ⟨t, true⟩) 3 :=
  (C9_blockSize_metadata (.int 2) (.bool false) .none
    (.tuple [.int 8, .int 8]) (.bool false)
    ⟨2, false, PyVal.none, "none", false, false, false⟩
    ⟨2, false, PyVal.tuple [.int 8, .int 8], "none", false, false, false⟩
    rfl rfl).1 (fun t => ⟨t, true⟩) 3

/-- C10: the core state machine's control behavior never reads `datain.valid`
or `dataout.ready`: two runs whose inputs agree on the `data` field but are
arbitrary on `valid`, and with arbitrary downstream-readiness traces, commit
the same readiness latch and the same resumption point (hence the same
register-update schedule) at every edge — the stall sequence runs with no
valid sample present, and the output register is rewritten on schedule even
when the consumer is not ready. -/
theorem C10_control_independence (k : Nat) (p : Bool)
    (din₁ din₂ : Nat → Sample) (dr₁ dr₂ : Nat → Bool)
    (hdata : ∀ t, (din₁ t).data = (din₂ t).data) :
    ∀ t, (statesR k p din₁ dr₁ t).map (fun s => (s.ready, s.phase)) =
      (statesR k p din₂ dr₂ t).map (fun s => (s.ready, s.phase)) := by
  intro t
  rw [statesR_eq_states, statesR_eq_states]
  have h := ctrl_indep k p din₁ din₂ t
  cases e1 : states k p din₁ t <;> cases e2 : states k p din₂ t <;>
    rw [e1, e2] at h <;> simp_all [ctrl, Prod.ext_iff]

/-- C10 witness: one run with all-valid inputs and a ready consumer, one with
all-invalid inputs and a stalled consumer — same readiness and phase at
edge 4. -/
theorem C10_witness :
    (statesR 3 false (fun t => ⟨t, true⟩) (fun _ => true) 4).map
        (fun s => (s.ready, s.phase)) =
      (statesR 3 false (fun t => ⟨t, false⟩) (fun _ => false) 4).map
        (fun s => (s.ready, s.phase)) :=
  C10_control_independence 3 false (fun t => ⟨t, true⟩) (fun t => ⟨t, false⟩)
    (fun _ => true) (fun _ => false) (fun _ => rfl) 4
